import Mathlib

/-!
# task_scheduler_go: a shallow embedding of `main.go`

The Go program is embedded by explicit state passing over a `World`:

* the durable stores on disk, by path, behind a `Driver` whose behaviour is a
  parameter (`sql.Open`, `db.Query`, `db.Exec`);
* a heap of `DBWrapper` objects (the program shares one by pointer);
* a trace of the primitive calls the program issues (mutex operations, calls on
  the store handle, scheduler calls), in program order;
* the console / log output, in program order;
* the number of times the clock has been read;
* for every call made on a store handle, the heap of wrappers, so the state of
  every lock, at the moment of that call.

A call that cannot return (a lock that is not available, a nil pointer) is
`none`.  `sync.RWMutex` is embedded by its documented behaviour.
-/

set_option linter.dupNamespace false

namespace TaskScheduler

/-! ## Values -/

/-- Go `error` values, identified by their message. -/
abbrev Err := String

/-- Instants of `time.Time`, as an abstract count. -/
abbrev Time := Nat

/-- Pointers into the heap of wrappers (`*DBWrapper`). -/
abbrev Ptr := Nat

/-- Values passed as `interface{}` arguments to the store or to the printers. -/
inductive Value
  | str (s : String)
  | int (n : Int)
  | time (t : Time)
  | err (e : Err)
  deriving DecidableEq, Repr

/-- The record `type Timestamp struct { ID int; Timestamp time.Time }`. -/
structure Timestamp where
  ID : Int
  Timestamp : Time
  deriving DecidableEq, Repr

/-- One row waiting in a cursor, as the outcome `rows.Scan(&t.ID, &t.Timestamp)`
has on it. -/
inductive Scanned
  | ok (id : Int) (ts : Time)
  | bad (e : Err)
  deriving DecidableEq, Repr

/-- The cursor `*sql.Rows`: the rows `rows.Next()` still delivers, and the
error `rows.Err()` reports once they are exhausted. -/
structure Rows where
  pending : List Scanned
  err : Option Err
  deriving DecidableEq, Repr

/-- The value `sql.Result`. -/
structure Result where
  lastInsertId : Int
  rowsAffected : Int
  deriving DecidableEq, Repr

/-- The handle `*sql.DB`, identified by the path it was opened on. -/
structure DB where
  path : String
  deriving DecidableEq, Repr

/-! ## sync.RWMutex -/

/-- State of a `sync.RWMutex`: how many readers hold it, and whether a writer
holds it. -/
structure RWMutex where
  readers : Nat
  writer : Bool
  deriving DecidableEq, Repr

namespace RWMutex

/-- The zero value: an unlocked mutex. -/
def free : RWMutex := ⟨0, false⟩

/-- Embeds `RLock`: proceeds only while no writer holds the lock. -/
def RLock (m : RWMutex) : Option RWMutex :=
  if m.writer then none else some { m with readers := m.readers + 1 }

/-- Embeds `RUnlock`: undoes one `RLock`; a runtime error when no reader holds the lock. -/
def RUnlock (m : RWMutex) : Option RWMutex :=
  if 0 < m.readers then some { m with readers := m.readers - 1 } else none

/-- Embeds `Lock`: proceeds only while neither a writer nor a reader holds the lock. -/
def Lock (m : RWMutex) : Option RWMutex :=
  if m.writer || decide (0 < m.readers) then none else some { m with writer := true }

/-- Embeds `Unlock`: a runtime error when no writer holds the lock. -/
def Unlock (m : RWMutex) : Option RWMutex :=
  if m.writer then some { m with writer := false } else none

end RWMutex

/-! ## The world -/

/-- Embeds `type DBWrapper struct { db *sql.DB; mutex sync.RWMutex }`. -/
structure DBWrapper where
  db : DB
  mutex : RWMutex
  deriving DecidableEq, Repr

/-- The primitive calls the program issues, recorded in program order. -/
inductive Event
  | sqlOpen (path : String)
  | query (db : DB) (q : String) (args : List Value)
  | exec (db : DB) (q : String) (args : List Value)
  | close (db : DB)
  | rlock (p : Ptr)
  | runlock (p : Ptr)
  | lock (p : Ptr)
  | unlock (p : Ptr)
  | newWrapper (p : Ptr) (db : DB)
  | cronNew
  | addJob (spec : String)
  | cronStart
  deriving DecidableEq, Repr

/-- Lines written to the console (`fmt`) and to the logger (`log`). -/
inductive Output
  | println (args : List Value)
  | printf (format : String) (args : List Value)
  | logPrintf (format : String) (args : List Value)
  | logPrintln (args : List Value)
  | logFatal (args : List Value)
  deriving DecidableEq, Repr

/-- Behaviour of the store engine behind `database/sql`, over store states `S`. -/
structure Driver (S : Type) where
  openDB : String → Option Err
  query : S → String → List Value → (Option Rows × Option Err) × S
  exec : S → String → List Value → (Option Result × Option Err) × S

/-- The state the program runs in. -/
structure World (S : Type) where
  disk : String → S
  heap : Ptr → Option DBWrapper
  nextPtr : Ptr
  trace : List Event
  out : List Output
  clockReads : Nat
  locksAtCall : List (Ptr → Option DBWrapper)

namespace World

variable {S : Type}

/-- Record a primitive call. -/
def emit (e : Event) (w : World S) : World S :=
  { w with trace := w.trace ++ [e] }

/-- Write one line of output. -/
def print (o : Output) (w : World S) : World S :=
  { w with out := w.out ++ [o] }

/-- Record the heap of wrappers, with the state of every lock, as a call on a
store handle finds it. -/
def snapshot (w : World S) : World S :=
  { w with locksAtCall := w.locksAtCall ++ [w.heap] }

/-- Store a wrapper at a pointer. -/
def setWrapper (p : Ptr) (x : DBWrapper) (w : World S) : World S :=
  { w with heap := fun q => if q = p then some x else w.heap q }

/-- Replace the store at a path. -/
def setStore (path : String) (s : S) (w : World S) : World S :=
  { w with disk := fun q => if q = path then s else w.disk q }

/-- A fresh process over the given disk. -/
def init (disk : String → S) : World S :=
  { disk := disk, heap := fun _ => none, nextPtr := 0, trace := [], out := [],
    clockReads := 0, locksAtCall := [] }

end World

variable {S : Type}

/-- Embeds `db.Query(query, args...)` on the handle. -/
def DB.Query (d : Driver S) (db : DB) (query : String) (args : List Value) (w : World S) :
    (Option Rows × Option Err) × World S :=
  let r := d.query (w.disk db.path) query args
  (r.1, (((w.emit (Event.query db query args)).snapshot).setStore db.path r.2))

/-- Embeds `db.Exec(query, args...)` on the handle. -/
def DB.Exec (d : Driver S) (db : DB) (query : String) (args : List Value) (w : World S) :
    (Option Result × Option Err) × World S :=
  let r := d.exec (w.disk db.path) query args
  (r.1, (((w.emit (Event.exec db query args)).snapshot).setStore db.path r.2))

/-- Embeds `db.Close()` on the handle. -/
def DB.Close (db : DB) (w : World S) : World S :=
  (w.emit (Event.close db)).snapshot

/-! ## DBWrapper -/

/-- Embeds `func (dbw *DBWrapper) ReadData(query string, args ...interface{}) (*sql.Rows, error)`:
`RLock`, deferred `RUnlock`, `return dbw.db.Query(query, args...)`. -/
def ReadData (d : Driver S) (dbw : Ptr) (query : String) (args : List Value) (w : World S) :
    Option ((Option Rows × Option Err) × World S) := do
  let x ← w.heap dbw
  let m1 ← x.mutex.RLock
  let w1 := (w.setWrapper dbw { x with mutex := m1 }).emit (Event.rlock dbw)
  let r := DB.Query d x.db query args w1
  let y ← r.2.heap dbw
  let m2 ← y.mutex.RUnlock
  pure (r.1, (r.2.setWrapper dbw { y with mutex := m2 }).emit (Event.runlock dbw))

/-- Embeds `func (dbw *DBWrapper) WriteData(query string, args ...interface{}) (sql.Result, error)`:
`Lock`, deferred `Unlock`, `return dbw.db.Exec(query, args...)`. -/
def WriteData (d : Driver S) (dbw : Ptr) (query : String) (args : List Value) (w : World S) :
    Option ((Option Result × Option Err) × World S) := do
  let x ← w.heap dbw
  let m1 ← x.mutex.Lock
  let w1 := (w.setWrapper dbw { x with mutex := m1 }).emit (Event.lock dbw)
  let r := DB.Exec d x.db query args w1
  let y ← r.2.heap dbw
  let m2 ← y.mutex.Unlock
  pure (r.1, (r.2.setWrapper dbw { y with mutex := m2 }).emit (Event.unlock dbw))


/-! ## Jobs -/

/-- What the program runs against: the store engine, the clock (the value the
n-th reading of `time.Now()` yields), the schedule parser of the cron library
(`none`: the expression is accepted), and how many dispatches of the registered
jobs the scheduler performs between `c.Start()` and the startup read, and during
the final wait. -/
structure Env (S : Type) where
  driver : Driver S
  clock : Nat → Time
  cronParse : String → Option Err
  firesBeforeRead : Nat
  firesWhileWaiting : Nat

/-- Embeds `time.Now()`. -/
def now (env : Env S) (w : World S) : Time × World S :=
  (env.clock w.clockReads, { w with clockReads := w.clockReads + 1 })

/-- Embeds `type PrintJob struct { message string }`. -/
structure PrintJob where
  message : String
  deriving DecidableEq, Repr

/-- Embeds `type StoreTimestampJob struct { dbw *DBWrapper }`. -/
structure StoreTimestampJob where
  dbw : Ptr
  deriving DecidableEq, Repr

/-- The statement of `StoreTimestampJob.Run`. -/
def insertQuery : String := "INSERT INTO timestamps (timestamp) VALUES (?)"

/-- Embeds `func (p *PrintJob) Run()`. -/
def PrintJob.Run (env : Env S) (p : PrintJob) (w : World S) : World S :=
  let t := now env w
  t.2.print (Output.println [Value.str p.message, Value.str "at: ", Value.time t.1])

/-- Embeds `func (p *StoreTimestampJob) Run()`. -/
def StoreTimestampJob.Run (env : Env S) (p : StoreTimestampJob) (w : World S) :
    Option (World S) := do
  let t := now env w
  let currentTime := t.1
  let r ← WriteData env.driver p.dbw insertQuery [Value.time currentTime] t.2
  let w2 :=
    match r.1.2 with
    | some err => r.2.print (Output.logPrintf "Failed to insert timestamp: %v" [Value.err err])
    | none => r.2
  pure (w2.print (Output.println [Value.str "Timestamp inserted:", Value.time currentTime]))

/-- Embeds `func InitStoreTimestampJob(dbw *DBWrapper) *StoreTimestampJob`. -/
def InitStoreTimestampJob (dbw : Ptr) : StoreTimestampJob :=
  { dbw := dbw }

/-- The interface `Job` with its two implementations. -/
inductive Job
  | print (p : PrintJob)
  | store (p : StoreTimestampJob)
  deriving DecidableEq, Repr

/-- Dynamic dispatch of `Run()`. -/
def Job.Run (env : Env S) (j : Job) (w : World S) : Option (World S) :=
  match j with
  | Job.print p => some (p.Run env w)
  | Job.store p => p.Run env w

/-! ## Startup -/

/-- The schema statement of `initDatabase`. -/
def createTableQuery : String :=
  "\n\tCREATE TABLE IF NOT EXISTS timestamps (\n\t\tid INTEGER PRIMARY KEY,\n\t\ttimestamp DATETIME\n\t);\n\t"

/-- Embeds `func initDatabase(databasePath string) (*DBWrapper, error)`. -/
def initDatabase (d : Driver S) (databasePath : String) (w : World S) :
    (Option Ptr × Option Err) × World S :=
  let w1 := (w.print (Output.println [Value.str "Loading database..."])).emit
    (Event.sqlOpen databasePath)
  match d.openDB databasePath with
  | some err => ((none, some err), w1)
  | none =>
    let db : DB := { path := databasePath }
    let r := DB.Exec d db createTableQuery [] w1
    match r.1.2 with
    | some err => ((none, some err), r.2)
    | none =>
      let w2 := r.2.print (Output.println [Value.str "Ran migrations..."])
      let p := w2.nextPtr
      ((some p, none),
        { (w2.setWrapper p { db := db, mutex := RWMutex.free }).emit (Event.newWrapper p db)
          with nextPtr := p + 1 })

/-- How a call that may panic ends. -/
inductive Outcome (α : Type)
  | ret (a : α)
  | panic (msg : String)
  deriving DecidableEq, Repr

/-- The runtime error of a method call through a nil pointer. -/
def nilDereference : String :=
  "runtime error: invalid memory address or nil pointer dereference"

/-- The loop `for rows.Next() { ... rows.Scan(&t.ID, &t.Timestamp) ... }` of
`readTimestamps` with its final `return timestamps, rows.Err()`: `err` is what
`rows.Err()` reports, the list is what `rows.Next()` still delivers, `acc` is
`timestamps`.  A nil slice and an empty slice are both `[]`. -/
def scanLoop (err : Option Err) : List Scanned → List Timestamp → List Timestamp × Option Err
  | [], acc => (acc, err)
  | Scanned.bad e :: _, _ => ([], some e)
  | Scanned.ok id ts :: rest, acc => scanLoop err rest (acc ++ [{ ID := id, Timestamp := ts }])

/-- The statement of `readTimestamps`. -/
def selectQuery : String := "SELECT * FROM timestamps"

/-- Embeds `func readTimestamps(dbw *DBWrapper) ([]Timestamp, error)`.  After a failed
`ReadData` the error is printed and control goes on to `rows.Next()`; on a nil
`rows` that call panics. -/
def readTimestamps (d : Driver S) (dbw : Ptr) (w : World S) :
    Option (Outcome (List Timestamp × Option Err) × World S) := do
  let r ← ReadData d dbw selectQuery [] w
  let w1 :=
    match r.1.2 with
    | some err => r.2.print (Output.println [Value.err err])
    | none => r.2
  match r.1.1 with
  | none => pure (Outcome.panic nilDereference, w1)
  | some rows => pure (Outcome.ret (scanLoop rows.err rows.pending []), w1)

/-! ## The scheduler -/

/-- The registry of a `*cron.Cron` and whether it has been started. -/
structure Cron where
  entries : List (String × Job)
  running : Bool
  deriving DecidableEq, Repr

/-- Embeds `cron.New(cron.WithSeconds())`. -/
def Cron.New (w : World S) : Cron × World S :=
  ({ entries := [], running := false }, w.emit Event.cronNew)

/-- Embeds `c.AddJob(spec, job)`: the entry is added unless the expression is rejected. -/
def Cron.AddJob (env : Env S) (c : Cron) (spec : String) (job : Job) (w : World S) :
    Option Err × Cron × World S :=
  match env.cronParse spec with
  | some err => (some err, c, w.emit (Event.addJob spec))
  | none => (none, { c with entries := c.entries ++ [(spec, job)] }, w.emit (Event.addJob spec))

/-- Embeds `c.Start()`. -/
def Cron.Start (c : Cron) (w : World S) : Cron × World S :=
  ({ c with running := true }, w.emit Event.cronStart)

/-- Run the given jobs one after the other. -/
def runJobs (env : Env S) : List Job → World S → Option (World S)
  | [], w => some w
  | j :: js, w => (j.Run env w).bind (runJobs env js)

/-- One dispatch by a started scheduler: every registered job runs. -/
def Cron.dispatch (env : Env S) (c : Cron) (w : World S) : Option (World S) :=
  if c.running then runJobs env (c.entries.map Prod.snd) w else some w

/-- The scheduler dispatching `n` times. -/
def Cron.dispatches (env : Env S) (c : Cron) : Nat → World S → Option (World S)
  | 0, w => some w
  | n + 1, w => (c.dispatch env w).bind (c.dispatches env n)

/-! ## main -/

/-- How `main` ends: `log.Fatal` (exit status 1), a return from `main`, a
panic, the final `select {}`, or a call that never returns. -/
inductive Exit
  | fatal
  | returned
  | panicked
  | waiting
  | stuck
  deriving DecidableEq, Repr

/-- The loop `for _, t := range timestamps { fmt.Printf(...) }` of `main`. -/
def printTimestamps : List Timestamp → World S → World S
  | [], w => w
  | t :: ts, w =>
    printTimestamps ts
      (w.print (Output.printf "ID: %d, Timestamp: %s\n" [Value.int t.ID, Value.time t.Timestamp]))

/-- The scheduler set-up of `main`: `cron.New`, `InitStoreTimestampJob`,
`c.AddJob("0 * * * * *", job)` with its error branch, `c.Start()`. -/
def startScheduler (env : Env S) (dbw : Ptr) (w : World S) : Cron × World S :=
  let c0 := Cron.New w
  let job := InitStoreTimestampJob dbw
  let a := Cron.AddJob env c0.1 "0 * * * * *" (Job.store job) c0.2
  let w1 :=
    match a.1 with
    | some err => a.2.2.print (Output.println [Value.str "Error scheduling task", Value.err err])
    | none => a.2.2
  Cron.Start a.2.1 w1

/-- The part of `main` after `defer dbw.db.Close()`, up to the point where the
deferred call would run. -/
def mainBody (env : Env S) (dbw : Ptr) (w : World S) : Exit × World S :=
  let c := startScheduler env dbw w
  match c.1.dispatches env env.firesBeforeRead c.2 with
  | none => (Exit.stuck, c.2)
  | some w2 =>
    match readTimestamps env.driver dbw w2 with
    | none => (Exit.stuck, w2)
    | some (Outcome.panic _, w3) => (Exit.panicked, w3)
    | some (Outcome.ret (_, some err), w3) =>
      (Exit.returned,
        w3.print (Output.logPrintln [Value.str "Error fetching timestamps:", Value.err err]))
    | some (Outcome.ret (timestamps, none), w3) =>
      let w4 := printTimestamps timestamps w3
      match c.1.dispatches env env.firesWhileWaiting w4 with
      | none => (Exit.stuck, w4)
      | some w5 => (Exit.waiting, w5)

/-- Embeds `func main()`.  `initSignals()` only installs the interrupt handler; the
executions embedded are those in which no signal arrives.  The deferred
`dbw.db.Close()` runs when `main` returns or panics. -/
def main (env : Env S) (w : World S) : Exit × World S :=
  match initDatabase env.driver "./data.db" w with
  | ((_, some dbError), w1) =>
    (Exit.fatal,
      w1.print (Output.logFatal [Value.str "Error initialized the database", Value.err dbError]))
  | ((none, none), w1) => (Exit.panicked, w1)
  | ((some dbw, none), w1) =>
    match w1.heap dbw with
    | none => (Exit.panicked, w1)
    | some x =>
      let r := mainBody env dbw w1
      match r.1 with
      | Exit.returned => (Exit.returned, DB.Close x.db r.2)
      | Exit.panicked => (Exit.panicked, DB.Close x.db r.2)
      | e => (e, r.2)

/-! ## Calls on the handle and the wrapper's lock -/

/-- Scan of a trace that tracks the wrapper's lock through its lock events
(the program has one wrapper over one handle): a `Query` must find the lock
held shared, an `Exec` must find it held exclusively, and a `Close` is never a
call made by `ReadData` or `WriteData`. -/
def guarded : RWMutex → List Event → Bool
  | _, [] => true
  | m, Event.rlock _ :: es => guarded { m with readers := m.readers + 1 } es
  | m, Event.runlock _ :: es => guarded { m with readers := m.readers - 1 } es
  | m, Event.lock _ :: es => guarded { m with writer := true } es
  | m, Event.unlock _ :: es => guarded { m with writer := false } es
  | m, Event.query _ _ _ :: es => decide (0 < m.readers) && guarded m es
  | m, Event.exec _ _ _ :: es => m.writer && guarded m es
  | _, Event.close _ :: _ => false
  | m, _ :: es => guarded m es

/-- The events that follow the construction of the wrapper. -/
def afterConstruction : List Event → List Event
  | [] => []
  | Event.newWrapper _ _ :: es => es
  | _ :: es => afterConstruction es

/-- Every call on the handle after the wrapper has been constructed is made by
`ReadData` or `WriteData`, under the wrapper's lock. -/
def handleOnlyViaWrapper (tr : List Event) : Bool :=
  guarded RWMutex.free (afterConstruction tr)

/-- The lines `main` prints for the records read. -/
def isRecordLine : Output → Bool
  | Output.printf _ _ => true
  | _ => false

/-- The lock state a trace leaves behind, tracked as in `guarded`. -/
def lockAfter : RWMutex → List Event → RWMutex
  | m, [] => m
  | m, Event.rlock _ :: es => lockAfter { m with readers := m.readers + 1 } es
  | m, Event.runlock _ :: es => lockAfter { m with readers := m.readers - 1 } es
  | m, Event.lock _ :: es => lockAfter { m with writer := true } es
  | m, Event.unlock _ :: es => lockAfter { m with writer := false } es
  | m, _ :: es => lockAfter m es

/-- A stretch of trace that starts and ends with the lock free and in which
every call on the handle is made through the wrapper. -/
def Quiet (T : List Event) : Prop :=
  guarded RWMutex.free T = true ∧ lockAfter RWMutex.free T = RWMutex.free

/-- The world `w2` comes from `w` by wrapper calls only: the heap is as it was,
the trace grew by a quiet stretch, and no record line was printed. -/
def Advances (w w2 : World S) : Prop :=
  w2.heap = w.heap ∧ ∃ T O, w2.trace = w.trace ++ T ∧ Quiet T ∧ w2.out = w.out ++ O
    ∧ ∀ o ∈ O, isRecordLine o = false

/-! ## A model of the store engine -/

/-- A store file: the table `timestamps(id INTEGER PRIMARY KEY, timestamp
DATETIME)` when it exists, its rows in rowid order. -/
structure SqliteDB where
  timestamps : Option (List (Int × Time))
  deriving DecidableEq, Repr

/-- The id the engine assigns to a row inserted without one: one more than the
largest id in the table. -/
def nextRowid (rows : List (Int × Time)) : Int :=
  rows.foldl (fun m r => max m r.1) 0 + 1

/-- The three statements of the program on the engine: `CREATE TABLE IF NOT
EXISTS` leaves an existing table alone, the `INSERT` appends a row under a fresh
id, the `SELECT` delivers the rows in rowid order. -/
def sqlite : Driver SqliteDB where
  openDB := fun _ => none
  exec := fun s q args =>
    if q = createTableQuery then
      match s.timestamps with
      | none => ((some ⟨0, 0⟩, none), { timestamps := some [] })
      | some _ => ((some ⟨0, 0⟩, none), s)
    else if q = insertQuery then
      match s.timestamps, args with
      | some rows, [Value.time t] =>
        ((some ⟨nextRowid rows, 1⟩, none), { timestamps := some (rows ++ [(nextRowid rows, t)]) })
      | some _, _ => ((none, some "wrong number of bound values"), s)
      | none, _ => ((none, some "no such table: timestamps"), s)
    else ((none, some "statement not modelled"), s)
  query := fun s q _ =>
    if q = selectQuery then
      match s.timestamps with
      | some rows => ((some ⟨rows.map (fun r => Scanned.ok r.1 r.2), none⟩, none), s)
      | none => ((none, some "no such table: timestamps"), s)
    else ((none, some "statement not modelled"), s)

/-- One `WriteData` of the job's `INSERT` per timestamp, in order; the errors
the calls returned are collected. -/
def insertAll (d : Driver S) (dbw : Ptr) : List Time → World S → Option (List (Option Err) × World S)
  | [], w => some ([], w)
  | t :: ts, w =>
    (WriteData d dbw insertQuery [Value.time t] w).bind fun r =>
      (insertAll d dbw ts r.2).map fun rest => (r.1.2 :: rest.1, rest.2)

/-- The table after the engine has inserted the given timestamps in order. -/
def appendRows : List (Int × Time) → List Time → List (Int × Time)
  | rows, [] => rows
  | rows, t :: ts => appendRows (rows ++ [(nextRowid rows, t)]) ts

/-- A disk on which no store file has a table yet. -/
def blankDisk : String → SqliteDB := fun _ => { timestamps := none }

/-! ## Interleaved calls on one wrapper -/

/-- Which method of the wrapper a goroutine calls. -/
inductive Call
  | read
  | write
  deriving DecidableEq, Repr

/-- Where a goroutine is inside `ReadData` / `WriteData`: before the lock, lock
taken, store call in progress, store call returned (deferred unlock pending),
returned to the caller. -/
inductive PC
  | idle
  | locked
  | calling
  | returned
  | done
  deriving DecidableEq, Repr

/-- A goroutine executing one call on the wrapper. -/
structure Thread where
  call : Call
  pc : PC
  deriving DecidableEq, Repr

/-- The next atomic action of a goroutine on the wrapper's mutex; `none` when it
cannot move (the lock is not available, or the call has returned). -/
def Thread.step (m : RWMutex) (t : Thread) : Option (RWMutex × Thread) :=
  match t.call, t.pc with
  | Call.read, PC.idle => m.RLock.map (fun m1 => (m1, { t with pc := PC.locked }))
  | Call.write, PC.idle => m.Lock.map (fun m1 => (m1, { t with pc := PC.locked }))
  | _, PC.locked => some (m, { t with pc := PC.calling })
  | _, PC.calling => some (m, { t with pc := PC.returned })
  | Call.read, PC.returned => m.RUnlock.map (fun m1 => (m1, { t with pc := PC.done }))
  | Call.write, PC.returned => m.Unlock.map (fun m1 => (m1, { t with pc := PC.done }))
  | _, PC.done => none

/-- One wrapper's mutex and the goroutines calling into the wrapper. -/
structure Sys where
  mutex : RWMutex
  threads : List Thread
  deriving DecidableEq, Repr

/-- The goroutine `i` is scheduled: it performs its next action if it can. -/
def Sys.step (s : Sys) (i : Nat) : Sys :=
  match s.threads[i]? with
  | none => s
  | some t =>
    match t.step s.mutex with
    | none => s
    | some r => { mutex := r.1, threads := s.threads.set i r.2 }

/-- An interleaving: the goroutines scheduled one after the other. -/
def Sys.run (s : Sys) (schedule : List Nat) : Sys :=
  schedule.foldl Sys.step s

/-- All calls about to start on an unlocked wrapper. -/
def Sys.start (calls : List Call) : Sys :=
  { mutex := RWMutex.free, threads := calls.map (fun c => { call := c, pc := PC.idle }) }

/-- The goroutine holds the lock in shared mode. -/
def Thread.holdsShared (t : Thread) : Bool :=
  t.call == Call.read && (t.pc == PC.locked || t.pc == PC.calling || t.pc == PC.returned)

/-- The goroutine holds the lock in exclusive mode. -/
def Thread.holdsExclusive (t : Thread) : Bool :=
  t.call == Call.write && (t.pc == PC.locked || t.pc == PC.calling || t.pc == PC.returned)

/-- The mutex state agrees with the goroutines that hold the lock. -/
def Sys.Consistent (s : Sys) : Prop :=
  s.mutex.readers = s.threads.countP Thread.holdsShared
    ∧ (if s.mutex.writer then 1 else 0) = s.threads.countP Thread.holdsExclusive
    ∧ (s.mutex.writer = true → s.mutex.readers = 0)

/-! ## Concrete runs -/

/-- The store model, a clock that starts at 100, a parser that accepts the
schedule, two dispatches before the startup read and one during the wait. -/
def demoEnv : Env SqliteDB :=
  { driver := sqlite, clock := fun n => 100 + n, cronParse := fun _ => none,
    firesBeforeRead := 2, firesWhileWaiting := 1 }

/-- As `demoEnv`, but every `Query` fails and returns no cursor. -/
def failingQueryEnv : Env SqliteDB :=
  { demoEnv with
    driver := { sqlite with query := fun s _ _ => ((none, some "disk I/O error"), s) } }

/-- As `demoEnv`, but the cursor of every `Query` holds a row that does not scan. -/
def corruptRowEnv : Env SqliteDB :=
  { demoEnv with
    driver := { sqlite with
      query := fun s _ _ =>
        ((some ⟨[Scanned.ok 1 5, Scanned.bad "unsupported Scan"], none⟩, none), s) } }

/-- As `demoEnv`, but `sql.Open` fails. -/
def noOpenEnv : Env SqliteDB :=
  { demoEnv with
    driver := { sqlite with openDB := fun _ => some "unable to open database file" } }

/-- As `demoEnv`, but every `Exec` fails. -/
def failingExecEnv : Env SqliteDB :=
  { demoEnv with
    driver := { sqlite with exec := fun s _ _ => ((none, some "database is locked"), s) } }

/-- The world right after a successful `initDatabase` on a blank disk. -/
def demoWorld : World SqliteDB :=
  (initDatabase sqlite "./data.db" (World.init blankDisk)).2

/-- The wrapper `initDatabase` has built in `demoWorld`, at pointer 0. -/
def demoWrapper : DBWrapper :=
  { db := { path := "./data.db" }, mutex := RWMutex.free }

/-! ## Theorems -/

/-! ### The wrapper -/

theorem ReadData_eq (d : Driver S) (dbw : Ptr) (query : String) (args : List Value)
    (w : World S) (x : DBWrapper) (hx : w.heap dbw = some x) (hw : x.mutex.writer = false) :
    ReadData d dbw query args w
      = some ((d.query (w.disk x.db.path) query args).1,
          { w with
            disk := fun p =>
              if p = x.db.path then (d.query (w.disk x.db.path) query args).2 else w.disk p
            trace := w.trace ++
              [Event.rlock dbw, Event.query x.db query args, Event.runlock dbw]
            locksAtCall := w.locksAtCall ++
              [fun q =>
                if q = dbw then
                  some { db := x.db,
                         mutex := { readers := x.mutex.readers + 1, writer := false } }
                else w.heap q] }) := by
  have hheap : (fun q => if q = dbw then
        some { db := x.db, mutex := { readers := x.mutex.readers, writer := x.mutex.writer } }
      else if q = dbw then
        some { db := x.db, mutex := { readers := x.mutex.readers + 1, writer := x.mutex.writer } }
      else w.heap q) = w.heap := by
    funext q
    by_cases h : q = dbw
    · simp [h, hx]
    · simp [h]
  simp [ReadData, hx, RWMutex.RLock, RWMutex.RUnlock, hw, DB.Query, World.emit,
    World.setWrapper, World.setStore, World.snapshot]
  simp [← hw, hheap]

theorem WriteData_eq (d : Driver S) (dbw : Ptr) (query : String) (args : List Value)
    (w : World S) (x : DBWrapper) (hx : w.heap dbw = some x) (hw : x.mutex.writer = false)
    (hr : x.mutex.readers = 0) :
    WriteData d dbw query args w
      = some ((d.exec (w.disk x.db.path) query args).1,
          { w with
            disk := fun p =>
              if p = x.db.path then (d.exec (w.disk x.db.path) query args).2 else w.disk p
            trace := w.trace ++
              [Event.lock dbw, Event.exec x.db query args, Event.unlock dbw]
            locksAtCall := w.locksAtCall ++
              [fun q =>
                if q = dbw then
                  some { db := x.db, mutex := { readers := 0, writer := true } }
                else w.heap q] }) := by
  have hheap : (fun q => if q = dbw then
        some { db := x.db, mutex := { readers := x.mutex.readers, writer := false } }
      else if q = dbw then
        some { db := x.db, mutex := { readers := x.mutex.readers, writer := true } }
      else w.heap q) = w.heap := by
    funext q
    by_cases h : q = dbw
    · simp [h, hx, ← hw]
    · simp [h]
  simp [WriteData, hx, RWMutex.Lock, RWMutex.Unlock, hw, hr, DB.Exec, World.emit,
    World.setWrapper, World.setStore, World.snapshot]
  simp [← hr, hheap]

/-- C1: with the lock available, `ReadData` and `WriteData` each return exactly
what the one store call (`Query` resp. `Exec`) on the unchanged query and
arguments returns, result and error alike, leave the store as that call left
it, and issue that call once, between taking and releasing the lock. -/
theorem wrapper_forwards_single_call (d : Driver S) (dbw : Ptr) (query : String)
    (args : List Value) (w : World S) (x : DBWrapper) (hx : w.heap dbw = some x) :
    (x.mutex.writer = false →
      ∃ w2, ReadData d dbw query args w
          = some ((d.query (w.disk x.db.path) query args).1, w2)
        ∧ w2.trace = w.trace ++
            [Event.rlock dbw, Event.query x.db query args, Event.runlock dbw]
        ∧ w2.disk x.db.path = (d.query (w.disk x.db.path) query args).2
        ∧ w2.out = w.out) ∧
    (x.mutex.writer = false → x.mutex.readers = 0 →
      ∃ w2, WriteData d dbw query args w
          = some ((d.exec (w.disk x.db.path) query args).1, w2)
        ∧ w2.trace = w.trace ++
            [Event.lock dbw, Event.exec x.db query args, Event.unlock dbw]
        ∧ w2.disk x.db.path = (d.exec (w.disk x.db.path) query args).2
        ∧ w2.out = w.out) := by
  constructor
  · intro hw
    exact ⟨_, ReadData_eq d dbw query args w x hx hw, rfl, by simp, rfl⟩
  · intro hw hr
    exact ⟨_, WriteData_eq d dbw query args w x hx hw hr, rfl, by simp, rfl⟩

/-- C2: a `ReadData` or `WriteData` call that acquires the lock returns what
the store call returned, with every wrapper's lock state as it was before the
call, whether the store call succeeded or failed; the call makes one call on
the store handle, between taking and releasing the lock, and at the moment of
that store call the lock of this wrapper is held by it, shared for `ReadData`
(one reader more than before, no writer) and exclusive for `WriteData` (the
writer, no reader), every other wrapper being as before. -/
theorem wrapper_lock_restored (d : Driver S) (dbw : Ptr) (query : String)
    (args : List Value) (w : World S) (x : DBWrapper) (hx : w.heap dbw = some x) :
    (x.mutex.writer = false →
      ∃ w2 held, ReadData d dbw query args w
          = some ((d.query (w.disk x.db.path) query args).1, w2)
        ∧ w2.heap = w.heap
        ∧ w2.trace = w.trace ++
            [Event.rlock dbw, Event.query x.db query args, Event.runlock dbw]
        ∧ w2.locksAtCall = w.locksAtCall ++ [held]
        ∧ held dbw = some { db := x.db,
                            mutex := { readers := x.mutex.readers + 1, writer := false } }
        ∧ ∀ q, q ≠ dbw → held q = w.heap q) ∧
    (x.mutex.writer = false → x.mutex.readers = 0 →
      ∃ w2 held, WriteData d dbw query args w
          = some ((d.exec (w.disk x.db.path) query args).1, w2)
        ∧ w2.heap = w.heap
        ∧ w2.trace = w.trace ++
            [Event.lock dbw, Event.exec x.db query args, Event.unlock dbw]
        ∧ w2.locksAtCall = w.locksAtCall ++ [held]
        ∧ held dbw = some { db := x.db, mutex := { readers := 0, writer := true } }
        ∧ ∀ q, q ≠ dbw → held q = w.heap q) := by
  constructor
  · intro hw
    refine ⟨_, _, ReadData_eq d dbw query args w x hx hw, rfl, rfl, rfl, by simp, ?_⟩
    intro q hq
    simp [hq]
  · intro hw hr
    refine ⟨_, _, WriteData_eq d dbw query args w x hx hw hr, rfl, rfl, rfl, by simp, ?_⟩
    intro q hq
    simp [hq]

/-! ### The timestamp job -/

theorem Run_eq (env : Env S) (p : StoreTimestampJob) (w : World S) (x : DBWrapper)
    (hx : w.heap p.dbw = some x) (hw : x.mutex.writer = false) (hr : x.mutex.readers = 0) :
    p.Run env w = some
      { w with
        clockReads := w.clockReads + 1
        disk := fun q =>
          if q = x.db.path then
            (env.driver.exec (w.disk x.db.path) insertQuery
              [Value.time (env.clock w.clockReads)]).2
          else w.disk q
        trace := w.trace ++
          [Event.lock p.dbw, Event.exec x.db insertQuery [Value.time (env.clock w.clockReads)],
            Event.unlock p.dbw]
        out := w.out ++
          ((match (env.driver.exec (w.disk x.db.path) insertQuery
              [Value.time (env.clock w.clockReads)]).1.2 with
            | some err => [Output.logPrintf "Failed to insert timestamp: %v" [Value.err err]]
            | none => []) ++
          [Output.println [Value.str "Timestamp inserted:", Value.time (env.clock w.clockReads)]])
        locksAtCall := w.locksAtCall ++
          [fun q =>
            if q = p.dbw then some { db := x.db, mutex := { readers := 0, writer := true } }
            else w.heap q] } := by
  have h := WriteData_eq env.driver p.dbw insertQuery [Value.time (env.clock w.clockReads)]
    (now env w).2 x hx hw hr
  simp only [StoreTimestampJob.Run]
  have hn : (now env w).1 = env.clock w.clockReads := rfl
  rw [hn, h]
  cases he : (env.driver.exec (w.disk x.db.path) insertQuery
      [Value.time (env.clock w.clockReads)]).1.2 <;>
    simp [now, World.print, he]

/-- C10: with the lock available, the last line `StoreTimestampJob.Run` writes
is the console line "Timestamp inserted:" with the captured time, after a
successful insert (where it is the only line) and after a failed one (where it
follows the "Failed to insert timestamp" log line). -/
theorem run_prints_inserted_line_always (env : Env S) (p : StoreTimestampJob) (w : World S)
    (x : DBWrapper) (hx : w.heap p.dbw = some x) (hw : x.mutex.writer = false)
    (hr : x.mutex.readers = 0) :
    ∃ w2, p.Run env w = some w2
      ∧ w2.out.getLast? = some (Output.println
          [Value.str "Timestamp inserted:", Value.time (env.clock w.clockReads)])
      ∧ ((env.driver.exec (w.disk x.db.path) insertQuery
            [Value.time (env.clock w.clockReads)]).1.2 = none →
          w2.out = w.out ++
            [Output.println [Value.str "Timestamp inserted:",
              Value.time (env.clock w.clockReads)]])
      ∧ (∀ err, (env.driver.exec (w.disk x.db.path) insertQuery
            [Value.time (env.clock w.clockReads)]).1.2 = some err →
          w2.out = w.out ++
            [Output.logPrintf "Failed to insert timestamp: %v" [Value.err err],
              Output.println [Value.str "Timestamp inserted:",
                Value.time (env.clock w.clockReads)]]) := by
  refine ⟨_, Run_eq env p w x hx hw hr, ?_, ?_, ?_⟩
  · simp
  · intro he
    simp [he]
  · intro err he
    simp [he]

/-! ### Interleavings -/

theorem Sys.start_consistent (calls : List Call) : (Sys.start calls).Consistent := by
  refine ⟨?_, ?_, ?_⟩
  · symm
    simp [Sys.start, RWMutex.free, List.countP_eq_zero, Thread.holdsShared]
  · symm
    simp [Sys.start, RWMutex.free, List.countP_eq_zero, Thread.holdsExclusive]
  · simp [Sys.start, RWMutex.free]

theorem Thread.step_balance (m m1 : RWMutex) (t t1 : Thread)
    (h : t.step m = some (m1, t1))
    (hR : (if t.holdsShared then 1 else 0) ≤ m.readers)
    (hX : m.writer = true → m.readers = 0) :
    m1.readers + (if t.holdsShared then 1 else 0)
        = m.readers + (if t1.holdsShared then 1 else 0)
      ∧ (if m1.writer then 1 else 0) + (if t.holdsExclusive then 1 else 0)
        = (if m.writer then 1 else 0) + (if t1.holdsExclusive then 1 else 0)
      ∧ (m1.writer = true → m1.readers = 0) := by
  rcases t with ⟨c, pc⟩
  rcases m with ⟨r, wr⟩
  cases c <;> cases pc <;> cases wr <;> rcases Nat.eq_zero_or_pos r with hr | hr <;>
    simp [Thread.step, RWMutex.RLock, RWMutex.RUnlock, RWMutex.Lock, RWMutex.Unlock,
      Thread.holdsShared, Thread.holdsExclusive, hr] at h hR hX ⊢ <;>
    (try (obtain ⟨h1, h2⟩ := h; subst h1; subst h2)) <;>
    (try simp [Thread.holdsShared, Thread.holdsExclusive] at *) <;>
    (try omega)

theorem Sys.step_consistent (s : Sys) (i : Nat) (h : s.Consistent) : (s.step i).Consistent := by
  cases hi : s.threads[i]? with
  | none => simpa [Sys.step, hi] using h
  | some t =>
    obtain ⟨hlt, hget⟩ := List.getElem?_eq_some.mp hi
    cases hs : t.step s.mutex with
    | none => simpa [Sys.step, hi, hs] using h
    | some r =>
      obtain ⟨m1, t1⟩ := r
      obtain ⟨hR, hW, hX⟩ := h
      have bR := List.boole_getElem_le_countP Thread.holdsShared s.threads i hlt
      have bW := List.boole_getElem_le_countP Thread.holdsExclusive s.threads i hlt
      rw [hget] at bR bW
      obtain ⟨e1, e2, e3⟩ := Thread.step_balance s.mutex m1 t t1 hs (by rw [hR]; exact bR) hX
      have hstep : s.step i = { mutex := m1, threads := s.threads.set i t1 } := by
        simp [Sys.step, hi, hs]
      rw [hstep]
      refine ⟨?_, ?_, e3⟩
      · show m1.readers = (s.threads.set i t1).countP Thread.holdsShared
        rw [List.countP_set _ _ _ _ hlt, hget]
        omega
      · show (if m1.writer then 1 else 0) = (s.threads.set i t1).countP Thread.holdsExclusive
        rw [List.countP_set _ _ _ _ hlt, hget]
        omega

theorem Sys.run_consistent (schedule : List Nat) (s : Sys) (h : s.Consistent) :
    (s.run schedule).Consistent := by
  induction schedule generalizing s with
  | nil => simpa [Sys.run] using h
  | cons i rest ih => exact ih (s.step i) (Sys.step_consistent s i h)

theorem countP_two_le {α : Type} (p : α → Bool) (l : List α) (i j : Nat) (a b : α)
    (hi : l[i]? = some a) (hj : l[j]? = some b) (hij : i ≠ j) (ha : p a = true)
    (hb : p b = true) : 2 ≤ l.countP p := by
  induction l generalizing i j with
  | nil => simp at hi
  | cons x xs ih =>
    cases i with
    | zero =>
      cases j with
      | zero => exact absurd rfl hij
      | succ j =>
        simp at hi hj
        subst hi
        have : 0 < xs.countP p := List.countP_pos_iff.mpr ⟨b, List.getElem?_mem hj, hb⟩
        rw [List.countP_cons_of_pos _ _ ha]
        omega
    | succ i =>
      cases j with
      | zero =>
        simp at hi hj
        subst hj
        have : 0 < xs.countP p := List.countP_pos_iff.mpr ⟨a, List.getElem?_mem hi, ha⟩
        rw [List.countP_cons_of_pos _ _ hb]
        omega
      | succ j =>
        simp at hi hj
        have := ih i j hi hj (by omega)
        rw [List.countP_cons]
        omega

/-- C3: in every interleaving of `ReadData` and `WriteData` calls on one
wrapper, while the store call of a `WriteData` is in progress no store call of
any other goroutine is in progress; and two `ReadData` store calls can be in
progress together. -/
theorem write_excludes_concurrent_calls :
    (∀ (calls : List Call) (schedule : List Nat) (i j : Nat) (ti tj : Thread),
      ((Sys.start calls).run schedule).threads[i]? = some ti →
      ((Sys.start calls).run schedule).threads[j]? = some tj →
      i ≠ j → ti.call = Call.write → ti.pc = PC.calling → tj.pc ≠ PC.calling) ∧
    ((Sys.start [Call.read, Call.read]).run [0, 0, 1, 1]).threads
      = [{ call := Call.read, pc := PC.calling }, { call := Call.read, pc := PC.calling }] := by
  refine ⟨?_, by decide⟩
  intro calls schedule i j ti tj hi hj hij hw hc hcj
  obtain ⟨hR, hW, hX⟩ := Sys.run_consistent schedule _ (Sys.start_consistent calls)
  have hti : ti.holdsExclusive = true := by simp [Thread.holdsExclusive, hw, hc]
  have h1 : 0 < ((Sys.start calls).run schedule).threads.countP Thread.holdsExclusive :=
    List.countP_pos_iff.mpr ⟨ti, List.getElem?_mem hi, hti⟩
  have hwr : ((Sys.start calls).run schedule).mutex.writer = true := by
    cases hb : ((Sys.start calls).run schedule).mutex.writer with
    | true => rfl
    | false => rw [hb] at hW; simp at hW; omega
  cases hcall : tj.call with
  | write =>
    have htj : tj.holdsExclusive = true := by simp [Thread.holdsExclusive, hcall, hcj]
    have h2 := countP_two_le Thread.holdsExclusive _ i j ti tj hi hj hij hti htj
    rw [hwr] at hW
    simp at hW
    omega
  | read =>
    have htj : tj.holdsShared = true := by simp [Thread.holdsShared, hcall, hcj]
    have h2 : 0 < ((Sys.start calls).run schedule).threads.countP Thread.holdsShared :=
      List.countP_pos_iff.mpr ⟨tj, List.getElem?_mem hj, htj⟩
    have := hX hwr
    omega

theorem write_excludes_concurrent_calls_witness :
    ((Sys.start [Call.write, Call.read]).run [0, 0, 1]).threads[0]?
        = some { call := Call.write, pc := PC.calling }
      ∧ ((Sys.start [Call.write, Call.read]).run [0, 0, 1]).threads[1]?
        = some { call := Call.read, pc := PC.idle }
      ∧ (0 : Nat) ≠ 1
      ∧ ({ call := Call.read, pc := PC.idle } : Thread).pc ≠ PC.calling :=
  ⟨by decide, by decide, by decide,
    write_excludes_concurrent_calls.1 [Call.write, Call.read] [0, 0, 1] 0 1
      { call := Call.write, pc := PC.calling } { call := Call.read, pc := PC.idle }
      (by decide) (by decide) (by decide) rfl rfl⟩

/-! ### The store model -/

theorem sqlite_exec_insert (rows : List (Int × Time)) (t : Time) :
    sqlite.exec { timestamps := some rows } insertQuery [Value.time t]
      = ((some ⟨nextRowid rows, 1⟩, none),
          { timestamps := some (rows ++ [(nextRowid rows, t)]) }) := by
  have h : insertQuery ≠ createTableQuery := by decide
  simp [sqlite, h]

theorem sqlite_exec_create (s : SqliteDB) :
    sqlite.exec s createTableQuery []
      = ((some ⟨0, 0⟩, none), { timestamps := some (s.timestamps.getD []) }) := by
  rcases s with ⟨_ | rows⟩ <;> simp [sqlite]

theorem sqlite_query_select (rows : List (Int × Time)) :
    sqlite.query { timestamps := some rows } selectQuery []
      = ((some ⟨rows.map (fun r => Scanned.ok r.1 r.2), none⟩, none),
          { timestamps := some rows }) := by
  simp [sqlite]

theorem WriteData_sqlite_insert (dbw : Ptr) (x : DBWrapper) (t : Time) (w : World SqliteDB)
    (rows : List (Int × Time)) (hx : w.heap dbw = some x) (hw : x.mutex.writer = false)
    (hr : x.mutex.readers = 0) (hd : w.disk x.db.path = { timestamps := some rows }) :
    ∃ w1, WriteData sqlite dbw insertQuery [Value.time t] w
        = some ((some ⟨nextRowid rows, 1⟩, none), w1)
      ∧ w1.heap = w.heap
      ∧ w1.disk x.db.path = { timestamps := some (rows ++ [(nextRowid rows, t)]) }
      ∧ w1.nextPtr = w.nextPtr := by
  have h := WriteData_eq sqlite dbw insertQuery [Value.time t] w x hx hw hr
  rw [hd, sqlite_exec_insert] at h
  exact ⟨_, h, rfl, by simp, rfl⟩

theorem insertAll_sqlite (dbw : Ptr) (x : DBWrapper) (ts : List Time) :
    ∀ (w : World SqliteDB) (rows : List (Int × Time)), w.heap dbw = some x →
      x.mutex.writer = false → x.mutex.readers = 0 →
      w.disk x.db.path = { timestamps := some rows } →
      ∃ w1, insertAll sqlite dbw ts w = some (ts.map (fun _ => none), w1)
        ∧ w1.heap = w.heap
        ∧ w1.disk x.db.path = { timestamps := some (appendRows rows ts) }
        ∧ w1.nextPtr = w.nextPtr := by
  induction ts with
  | nil =>
    intro w rows _ _ _ hd
    exact ⟨w, rfl, rfl, by simpa [appendRows] using hd, rfl⟩
  | cons t ts ih =>
    intro w rows hx hw hr hd
    obtain ⟨w0, g1, g2, g3, g4⟩ := WriteData_sqlite_insert dbw x t w rows hx hw hr hd
    obtain ⟨w1, h1, h2, h3, h4⟩ := ih w0 (rows ++ [(nextRowid rows, t)])
      (by rw [g2]; exact hx) hw hr g3
    refine ⟨w1, ?_, h2.trans g2, ?_, h4.trans g4⟩
    · simp [insertAll, g1, h1]
    · simpa [appendRows] using h3

theorem foldl_max_le (rows : List (Int × Time)) :
    ∀ init : Int, init ≤ rows.foldl (fun m r => max m r.1) init
      ∧ ∀ r ∈ rows, r.1 ≤ rows.foldl (fun m r => max m r.1) init := by
  induction rows with
  | nil => intro init; simp
  | cons a rest ih =>
    intro init
    obtain ⟨h1, h2⟩ := ih (max init a.1)
    refine ⟨le_trans (le_max_left _ _) h1, ?_⟩
    intro r hr
    rcases List.mem_cons.mp hr with rfl | hr
    · exact le_trans (le_max_right _ _) h1
    · exact h2 r hr

theorem lt_nextRowid (rows : List (Int × Time)) (r : Int × Time) (hr : r ∈ rows) :
    r.1 < nextRowid rows := by
  have := (foldl_max_le rows 0).2 r hr
  unfold nextRowid
  omega

theorem appendRows_timestamps (ts : List Time) :
    ∀ rows : List (Int × Time),
      (appendRows rows ts).map Prod.snd = rows.map Prod.snd ++ ts := by
  induction ts with
  | nil => intro rows; simp [appendRows]
  | cons t ts ih => intro rows; simp [appendRows, ih]

theorem appendRows_ascending (ts : List Time) :
    ∀ rows : List (Int × Time), (rows.map Prod.fst).Pairwise (· < ·) →
      ((appendRows rows ts).map Prod.fst).Pairwise (· < ·) := by
  induction ts with
  | nil => intro rows h; simpa [appendRows] using h
  | cons t ts ih =>
    intro rows h
    apply ih
    rw [List.map_append, List.pairwise_append]
    refine ⟨h, by simp, ?_⟩
    intro a ha b hb
    obtain ⟨r, hr, rfl⟩ := List.mem_map.mp ha
    simp at hb
    subst hb
    exact lt_nextRowid rows r hr

theorem scanLoop_ok (err : Option Err) (rows : List (Int × Time)) :
    ∀ acc : List Timestamp,
      scanLoop err (rows.map (fun r => Scanned.ok r.1 r.2)) acc
        = (acc ++ rows.map (fun r => { ID := r.1, Timestamp := r.2 }), err) := by
  induction rows with
  | nil => intro acc; simp [scanLoop]
  | cons r rest ih => intro acc; simp [scanLoop, ih]

theorem readTimestamps_sqlite (dbw : Ptr) (x : DBWrapper) (w : World SqliteDB)
    (rows : List (Int × Time)) (hx : w.heap dbw = some x) (hw : x.mutex.writer = false)
    (hd : w.disk x.db.path = { timestamps := some rows }) :
    ∃ w1, readTimestamps sqlite dbw w
        = some (Outcome.ret (rows.map (fun r => { ID := r.1, Timestamp := r.2 }), none), w1)
      ∧ w1.disk = w.disk ∧ w1.out = w.out := by
  have h := ReadData_eq sqlite dbw selectQuery [] w x hx hw
  rw [hd, sqlite_query_select] at h
  have hread : readTimestamps sqlite dbw w
      = some (Outcome.ret (rows.map (fun r => { ID := r.1, Timestamp := r.2 }), none),
          { w with
            disk := fun p => if p = x.db.path then { timestamps := some rows } else w.disk p
            trace := w.trace ++
              [Event.rlock dbw, Event.query x.db selectQuery [], Event.runlock dbw]
            locksAtCall := w.locksAtCall ++
              [fun q =>
                if q = dbw then
                  some { db := x.db,
                         mutex := { readers := x.mutex.readers + 1, writer := false } }
                else w.heap q] }) := by
    simp [readTimestamps, h, scanLoop_ok]
  refine ⟨_, hread, ?_, rfl⟩
  show (fun p => if p = x.db.path then _ else w.disk p) = w.disk
  funext p
  by_cases hp : p = x.db.path
  · simp [hp, hd]
  · simp [hp]

/-- C6: over the store model, on a wrapper with its lock free and an empty
`timestamps` table, inserting the timestamps `ts` one by one through
`WriteData` with the job's `INSERT` succeeds every time, and `readTimestamps`
then returns no error and exactly as many records as were inserted, with
pairwise distinct ids in strictly ascending order and the timestamps equal to
the inserted values in insertion order. -/
theorem insert_then_read_round_trip (dbw : Ptr) (x : DBWrapper) (w : World SqliteDB)
    (ts : List Time) (hx : w.heap dbw = some x) (hw : x.mutex.writer = false)
    (hr : x.mutex.readers = 0) (hd : w.disk x.db.path = { timestamps := some [] }) :
    ∃ w1 w2 records,
      insertAll sqlite dbw ts w = some (ts.map (fun _ => none), w1)
      ∧ readTimestamps sqlite dbw w1 = some (Outcome.ret (records, none), w2)
      ∧ records.length = ts.length
      ∧ (records.map Timestamp.ID).Nodup
      ∧ (records.map Timestamp.ID).Pairwise (· < ·)
      ∧ records.map Timestamp.Timestamp = ts := by
  obtain ⟨w1, h1, h2, h3, _⟩ := insertAll_sqlite dbw x ts w [] hx hw hr hd
  obtain ⟨w2, g1, _, _⟩ := readTimestamps_sqlite dbw x w1 (appendRows [] ts)
    (by rw [h2]; exact hx) hw h3
  have hts := appendRows_timestamps ts []
  have hasc := appendRows_ascending ts [] (by simp)
  have hids : ((appendRows [] ts).map fun r => ({ ID := r.1, Timestamp := r.2 } : Timestamp)).map
      Timestamp.ID = (appendRows [] ts).map Prod.fst := by
    simp [List.map_map, Function.comp_def]
  have htms : ((appendRows [] ts).map fun r => ({ ID := r.1, Timestamp := r.2 } : Timestamp)).map
      Timestamp.Timestamp = (appendRows [] ts).map Prod.snd := by
    simp [List.map_map, Function.comp_def]
  refine ⟨w1, w2, _, h1, g1, ?_, ?_, ?_, ?_⟩
  · have := congrArg List.length hts
    simpa using this
  · rw [hids]
    exact hasc.imp (fun h => ne_of_lt h)
  · rw [hids]
    exact hasc
  · rw [htms]
    simpa using hts

/-! ### Startup -/

theorem initDatabase_ok (d : Driver S) (path : String) (w : World S)
    (ho : d.openDB path = none)
    (he : (d.exec (w.disk path) createTableQuery []).1.2 = none) :
    initDatabase d path w = ((some w.nextPtr, none),
      { disk := fun q =>
          if q = path then (d.exec (w.disk path) createTableQuery []).2 else w.disk q
        heap := fun q =>
          if q = w.nextPtr then some { db := { path := path }, mutex := RWMutex.free }
          else w.heap q
        nextPtr := w.nextPtr + 1
        trace := w.trace ++
          [Event.sqlOpen path, Event.exec { path := path } createTableQuery [],
            Event.newWrapper w.nextPtr { path := path }]
        out := w.out ++
          [Output.println [Value.str "Loading database..."],
            Output.println [Value.str "Ran migrations..."]]
        clockReads := w.clockReads
        locksAtCall := w.locksAtCall ++ [w.heap] }) := by
  simp [initDatabase, ho, DB.Exec, World.setWrapper, World.emit, World.print, World.setStore,
    World.snapshot, he]

theorem initDatabase_sqlite (path : String) (w : World SqliteDB) :
    ∃ w1, initDatabase sqlite path w = ((some w.nextPtr, none), w1)
      ∧ w1.heap w.nextPtr = some { db := { path := path }, mutex := RWMutex.free }
      ∧ w1.disk path = { timestamps := some ((w.disk path).timestamps.getD []) }
      ∧ (∀ q, q ≠ path → w1.disk q = w.disk q) := by
  have h := initDatabase_ok sqlite path w rfl (by rw [sqlite_exec_create])
  refine ⟨_, h, by simp, by simp [sqlite_exec_create], ?_⟩
  intro q hq
  simp [hq]

/-- C7: over the store model, from any world: a first `initDatabase` succeeds,
any sequence of inserts through its wrapper succeeds, and a second
`initDatabase` on the same path then returns a wrapper and no error and leaves
every store on disk, so the rows of `timestamps` with their ids and timestamps,
exactly as it was before the second call. -/
theorem initDatabase_twice_keeps_rows (path : String) (w : World SqliteDB) (ts : List Time) :
    ∃ p w1 w2 p2 w3,
      initDatabase sqlite path w = ((some p, none), w1)
      ∧ insertAll sqlite p ts w1 = some (ts.map (fun _ => none), w2)
      ∧ w2.disk path
          = { timestamps := some (appendRows ((w.disk path).timestamps.getD []) ts) }
      ∧ initDatabase sqlite path w2 = ((some p2, none), w3)
      ∧ w3.disk = w2.disk := by
  obtain ⟨w1, h1, h2, h3, _⟩ := initDatabase_sqlite path w
  obtain ⟨w2, g1, _, g3, _⟩ := insertAll_sqlite w.nextPtr
    { db := { path := path }, mutex := RWMutex.free } ts w1 _ h2 rfl rfl h3
  obtain ⟨w3, k1, _, k3, k4⟩ := initDatabase_sqlite path w2
  refine ⟨_, w1, w2, _, w3, h1, g1, g3, k1, ?_⟩
  funext q
  by_cases hq : q = path
  · subst hq
    rw [k3]
    simp only at g3
    rw [g3]
    rfl
  · exact k4 q hq

theorem initDatabase_open_failed (d : Driver S) (path : String) (w : World S) (e : Err)
    (ho : d.openDB path = some e) :
    initDatabase d path w = ((none, some e),
      { w with
        trace := w.trace ++ [Event.sqlOpen path]
        out := w.out ++ [Output.println [Value.str "Loading database..."]] }) := by
  simp [initDatabase, ho, World.emit, World.print]

theorem initDatabase_exec_failed (d : Driver S) (path : String) (w : World S) (e : Err)
    (ho : d.openDB path = none)
    (he : (d.exec (w.disk path) createTableQuery []).1.2 = some e) :
    initDatabase d path w = ((none, some e),
      { w with
        disk := fun q =>
          if q = path then (d.exec (w.disk path) createTableQuery []).2 else w.disk q
        trace := w.trace ++ [Event.sqlOpen path, Event.exec { path := path } createTableQuery []]
        out := w.out ++ [Output.println [Value.str "Loading database..."]]
        locksAtCall := w.locksAtCall ++ [w.heap] }) := by
  simp [initDatabase, ho, DB.Exec, World.emit, World.print, World.setStore, World.snapshot, he]

/-- C8: `initDatabase` returns the error `e` exactly when `sql.Open` fails with
`e`, or `sql.Open` succeeds and the schema statement fails with `e`; an error
comes with no wrapper; without an error the result is a new wrapper over the
handle opened on the path, its lock free.  When `initDatabase` returns an error
in `main`, `main` ends in `log.Fatal` having issued nothing beyond the calls of
`initDatabase` itself (`sql.Open`, and the schema statement if it got that
far): no scheduler created, no job registered, no read. -/
theorem initDatabase_error_aborts_startup (env : Env S) (path : String) (w : World S)
    (e : Err) :
    ((initDatabase env.driver path w).1.2 = some e ↔
        (env.driver.openDB path = some e ∨
          (env.driver.openDB path = none ∧
            (env.driver.exec (w.disk path) createTableQuery []).1.2 = some e)))
    ∧ ((initDatabase env.driver path w).1.2 = some e →
        (initDatabase env.driver path w).1.1 = none)
    ∧ ((initDatabase env.driver path w).1.2 = none →
        (initDatabase env.driver path w).1.1 = some w.nextPtr
        ∧ (initDatabase env.driver path w).2.heap w.nextPtr
            = some { db := { path := path }, mutex := RWMutex.free })
    ∧ ((initDatabase env.driver "./data.db" w).1.2 = some e →
        (main env w).1 = Exit.fatal
        ∧ (main env w).2.out = w.out ++
            [Output.println [Value.str "Loading database..."],
              Output.logFatal [Value.str "Error initialized the database", Value.err e]]
        ∧ ((main env w).2.trace = w.trace ++ [Event.sqlOpen "./data.db"]
          ∨ (main env w).2.trace = w.trace ++
              [Event.sqlOpen "./data.db",
                Event.exec { path := "./data.db" } createTableQuery []])) := by
  refine ⟨?_, ?_, ?_, ?_⟩
  · cases ho : env.driver.openDB path with
    | some e1 => simp [initDatabase_open_failed _ _ _ _ ho]
    | none =>
      cases he : (env.driver.exec (w.disk path) createTableQuery []).1.2 with
      | some e1 => simp [initDatabase_exec_failed _ _ _ _ ho he]
      | none => simp [initDatabase_ok _ _ _ ho he]
  · cases ho : env.driver.openDB path with
    | some e1 => simp [initDatabase_open_failed _ _ _ _ ho]
    | none =>
      cases he : (env.driver.exec (w.disk path) createTableQuery []).1.2 with
      | some e1 => simp [initDatabase_exec_failed _ _ _ _ ho he]
      | none => simp [initDatabase_ok _ _ _ ho he]
  · cases ho : env.driver.openDB path with
    | some e1 => simp [initDatabase_open_failed _ _ _ _ ho]
    | none =>
      cases he : (env.driver.exec (w.disk path) createTableQuery []).1.2 with
      | some e1 => simp [initDatabase_exec_failed _ _ _ _ ho he]
      | none => simp [initDatabase_ok _ _ _ ho he]
  · cases ho : env.driver.openDB "./data.db" with
    | some e1 =>
      simp only [main, initDatabase_open_failed _ _ _ _ ho]
      intro h
      simp at h
      subst h
      simp [World.print]
    | none =>
      cases he : (env.driver.exec (w.disk "./data.db") createTableQuery []).1.2 with
      | some e1 =>
        simp only [main, initDatabase_exec_failed _ _ _ _ ho he]
        intro h
        simp at h
        subst h
        simp [World.print]
      | none => simp [initDatabase_ok _ _ _ ho he]

/-! ### Runs of `main` -/

theorem guarded_append (A B : List Event) :
    ∀ m, guarded m (A ++ B) = (guarded m A && guarded (lockAfter m A) B) := by
  induction A with
  | nil => intro m; simp [guarded, lockAfter]
  | cons a A ih =>
    intro m
    cases a <;> simp [guarded, lockAfter, ih, Bool.and_assoc]

theorem lockAfter_append (A B : List Event) :
    ∀ m, lockAfter m (A ++ B) = lockAfter (lockAfter m A) B := by
  induction A with
  | nil => intro m; simp [lockAfter]
  | cons a A ih =>
    intro m
    cases a <;> simp [lockAfter, ih]

theorem Quiet.nil : Quiet [] := ⟨rfl, rfl⟩

theorem Quiet.append {A B : List Event} (hA : Quiet A) (hB : Quiet B) : Quiet (A ++ B) := by
  refine ⟨?_, ?_⟩
  · rw [guarded_append, hA.1, hA.2, hB.1]; rfl
  · rw [lockAfter_append, hA.2, hB.2]

theorem quiet_write (p : Ptr) (db : DB) (q : String) (args : List Value) :
    Quiet [Event.lock p, Event.exec db q args, Event.unlock p] := ⟨rfl, rfl⟩

theorem quiet_read (p : Ptr) (db : DB) (q : String) (args : List Value) :
    Quiet [Event.rlock p, Event.query db q args, Event.runlock p] := ⟨rfl, rfl⟩

theorem Advances.refl (w : World S) : Advances w w :=
  ⟨rfl, [], [], by simp, Quiet.nil, by simp, by simp⟩

theorem Advances.trans {w1 w2 w3 : World S} (h12 : Advances w1 w2) (h23 : Advances w2 w3) :
    Advances w1 w3 := by
  obtain ⟨a1, T1, O1, a2, a3, a4, a5⟩ := h12
  obtain ⟨b1, T2, O2, b2, b3, b4, b5⟩ := h23
  refine ⟨b1.trans a1, T1 ++ T2, O1 ++ O2, ?_, a3.append b3, ?_, ?_⟩
  · rw [b2, a2, List.append_assoc]
  · rw [b4, a4, List.append_assoc]
  · intro o ho
    rcases List.mem_append.mp ho with h | h
    · exact a5 o h
    · exact b5 o h

theorem Run_advances (env : Env S) (p : StoreTimestampJob) (w : World S) (x : DBWrapper)
    (hx : w.heap p.dbw = some x) (hw : x.mutex.writer = false) (hr : x.mutex.readers = 0) :
    ∃ w2, p.Run env w = some w2 ∧ Advances w w2 := by
  refine ⟨_, Run_eq env p w x hx hw hr, rfl, _, _, rfl, quiet_write _ _ _ _, rfl, ?_⟩
  intro o ho
  cases he : (env.driver.exec (w.disk x.db.path) insertQuery
      [Value.time (env.clock w.clockReads)]).1.2 <;>
    simp [he] at ho <;> rcases ho with rfl | rfl <;> rfl

theorem runJobs_advances (env : Env S) (dbw : Ptr) (x : DBWrapper)
    (hw : x.mutex.writer = false) (hr : x.mutex.readers = 0) (jobs : List Job)
    (hj : ∀ j ∈ jobs, j = Job.store { dbw := dbw }) :
    ∀ w : World S, w.heap dbw = some x → ∃ w2, runJobs env jobs w = some w2 ∧ Advances w w2 := by
  induction jobs with
  | nil => intro w _; exact ⟨w, rfl, Advances.refl w⟩
  | cons j js ih =>
    intro w hx
    have hjj := hj j (List.mem_cons_self _ _)
    subst hjj
    obtain ⟨w1, h1, a1⟩ := Run_advances env { dbw := dbw } w x hx hw hr
    obtain ⟨w2, h2, a2⟩ := ih (fun k hk => hj k (List.mem_cons_of_mem _ hk)) w1
      (by rw [a1.1]; exact hx)
    exact ⟨w2, by simp [runJobs, Job.Run, h1, h2], a1.trans a2⟩

theorem dispatches_advances (env : Env S) (dbw : Ptr) (x : DBWrapper)
    (hw : x.mutex.writer = false) (hr : x.mutex.readers = 0) (c : Cron)
    (hj : ∀ j ∈ c.entries.map Prod.snd, j = Job.store { dbw := dbw }) (n : Nat) :
    ∀ w : World S, w.heap dbw = some x →
      ∃ w2, c.dispatches env n w = some w2 ∧ Advances w w2 := by
  induction n with
  | zero => intro w _; exact ⟨w, rfl, Advances.refl w⟩
  | succ n ih =>
    intro w hx
    have hd : ∃ w1, c.dispatch env w = some w1 ∧ Advances w w1 := by
      unfold Cron.dispatch
      by_cases hrun : c.running = true
      · simpa [hrun] using runJobs_advances env dbw x hw hr _ hj w hx
      · exact ⟨w, by simp [hrun], Advances.refl w⟩
    obtain ⟨w1, h1, a1⟩ := hd
    obtain ⟨w2, h2, a2⟩ := ih w1 (by rw [a1.1]; exact hx)
    exact ⟨w2, by simp [Cron.dispatches, h1, h2], a1.trans a2⟩

theorem readTimestamps_eq (d : Driver S) (dbw : Ptr) (w : World S) (x : DBWrapper)
    (hx : w.heap dbw = some x) (hw : x.mutex.writer = false) :
    readTimestamps d dbw w = some
      ((match (d.query (w.disk x.db.path) selectQuery []).1.1 with
        | none => Outcome.panic nilDereference
        | some rows => Outcome.ret (scanLoop rows.err rows.pending [])),
        { w with
          disk := fun p =>
            if p = x.db.path then (d.query (w.disk x.db.path) selectQuery []).2 else w.disk p
          trace := w.trace ++
            [Event.rlock dbw, Event.query x.db selectQuery [], Event.runlock dbw]
          out := w.out ++
            (match (d.query (w.disk x.db.path) selectQuery []).1.2 with
              | some err => [Output.println [Value.err err]]
              | none => [])
          locksAtCall := w.locksAtCall ++
            [fun q =>
              if q = dbw then
                some { db := x.db,
                       mutex := { readers := x.mutex.readers + 1, writer := false } }
              else w.heap q] }) := by
  have h := ReadData_eq d dbw selectQuery [] w x hx hw
  simp only [readTimestamps, h, Option.bind_eq_bind, Option.some_bind]
  cases h1 : (d.query (w.disk x.db.path) selectQuery []).1.1 <;>
    cases h2 : (d.query (w.disk x.db.path) selectQuery []).1.2 <;>
    simp [World.print]

theorem printTimestamps_frame (ts : List Timestamp) :
    ∀ w : World S, (printTimestamps ts w).trace = w.trace ∧ (printTimestamps ts w).heap = w.heap := by
  induction ts with
  | nil => intro w; exact ⟨rfl, rfl⟩
  | cons t ts ih =>
    intro w
    obtain ⟨h1, h2⟩ := ih (w.print (Output.printf "ID: %d, Timestamp: %s\n"
      [Value.int t.ID, Value.time t.Timestamp]))
    exact ⟨h1, h2⟩

theorem startScheduler_spec (env : Env S) (dbw : Ptr) (w : World S) :
    (∀ j ∈ (startScheduler env dbw w).1.entries.map Prod.snd, j = Job.store { dbw := dbw })
    ∧ Advances w (startScheduler env dbw w).2 := by
  cases hp : env.cronParse "0 * * * * *" with
  | some err =>
    have h : startScheduler env dbw w = ({ entries := [], running := true },
        { w with
          trace := w.trace ++ [Event.cronNew, Event.addJob "0 * * * * *", Event.cronStart]
          out := w.out ++
            [Output.println [Value.str "Error scheduling task", Value.err err]] }) := by
      simp [startScheduler, Cron.AddJob, hp, Cron.Start, Cron.New, World.emit, World.print]
    rw [h]
    refine ⟨by simp, rfl, _, _, rfl, ⟨rfl, rfl⟩, rfl, ?_⟩
    intro o ho
    simp at ho
    subst ho
    rfl
  | none =>
    have h : startScheduler env dbw w =
        ({ entries := [("0 * * * * *", Job.store { dbw := dbw })], running := true },
        { w with
          trace := w.trace ++ [Event.cronNew, Event.addJob "0 * * * * *", Event.cronStart] }) := by
      simp [startScheduler, Cron.AddJob, hp, Cron.Start, Cron.New, World.emit,
        InitStoreTimestampJob]
    rw [h]
    exact ⟨by simp, rfl, _, [], rfl, ⟨rfl, rfl⟩, by simp, by simp⟩

theorem mainBody_spec (env : Env S) (dbw : Ptr) (w : World S) (x : DBWrapper)
    (hx : w.heap dbw = some x) (hw : x.mutex.writer = false) (hr : x.mutex.readers = 0) :
    (mainBody env dbw w).1 ≠ Exit.stuck
    ∧ (∃ T, (mainBody env dbw w).2.trace = w.trace ++ T ∧ Quiet T)
    ∧ (∀ e, (∀ s, (env.driver.query s selectQuery []).1 = (none, some e)) →
        (mainBody env dbw w).1 = Exit.panicked
        ∧ ∃ O, (mainBody env dbw w).2.out = w.out ++ O ∧ Output.println [Value.err e] ∈ O
          ∧ ∀ o ∈ O, isRecordLine o = false)
    ∧ (∀ (rows : Rows) (e : Err),
        (∀ s, (env.driver.query s selectQuery []).1 = (some rows, none)) →
        (scanLoop rows.err rows.pending []).2 = some e →
        (mainBody env dbw w).1 = Exit.returned
        ∧ ∃ O, (mainBody env dbw w).2.out = w.out ++ (O ++
            [Output.logPrintln [Value.str "Error fetching timestamps:", Value.err e]])
          ∧ ∀ o ∈ O, isRecordLine o = false) := by
  obtain ⟨hjobs, aS⟩ := startScheduler_spec env dbw w
  obtain ⟨w2, h2, a2⟩ := dispatches_advances env dbw x hw hr _ hjobs env.firesBeforeRead _
    (by rw [aS.1]; exact hx)
  have hx2 : w2.heap dbw = some x := by rw [a2.1, aS.1]; exact hx
  have hread := readTimestamps_eq env.driver dbw w2 x hx2 hw
  obtain ⟨_, T, O, hT, qT, hO, hrec⟩ := aS.trans a2
  have hbody : mainBody env dbw w =
      match readTimestamps env.driver dbw w2 with
      | none => (Exit.stuck, w2)
      | some (Outcome.panic _, w3) => (Exit.panicked, w3)
      | some (Outcome.ret (_, some err), w3) =>
        (Exit.returned,
          w3.print (Output.logPrintln [Value.str "Error fetching timestamps:", Value.err err]))
      | some (Outcome.ret (timestamps, none), w3) =>
        match (startScheduler env dbw w).1.dispatches env env.firesWhileWaiting
            (printTimestamps timestamps w3) with
        | none => (Exit.stuck, printTimestamps timestamps w3)
        | some w5 => (Exit.waiting, w5) := by
    simp only [mainBody, h2]
  rw [hbody, hread]
  have qR : Quiet (T ++ [Event.rlock dbw, Event.query x.db selectQuery [], Event.runlock dbw]) :=
    qT.append (quiet_read _ _ _ _)
  cases h11 : (env.driver.query (w2.disk x.db.path) selectQuery []).1.1 with
  | none =>
    refine ⟨by simp, ⟨_, by simp [hT, List.append_assoc], qR⟩, ?_, ?_⟩
    · intro e hq
      have h12 : (env.driver.query (w2.disk x.db.path) selectQuery []).1.2 = some e := by
        rw [hq]
      refine ⟨rfl, O ++ [Output.println [Value.err e]], by simp [hO, h12], by simp, ?_⟩
      intro o ho
      rcases List.mem_append.mp ho with h | h
      · exact hrec o h
      · simp at h
        subst h
        rfl
    · intro rows e hq _
      rw [hq] at h11
      simp at h11
  | some rows =>
    have hnq : ∀ e, ¬ (∀ s, (env.driver.query s selectQuery []).1 = (none, some e)) := by
      intro e hq
      rw [hq] at h11
      simp at h11
    cases hscan : scanLoop rows.err rows.pending [] with
    | mk ts serr =>
      cases serr with
      | some err =>
        simp only [hscan]
        refine ⟨by simp, ⟨_, by simp [World.print, hT, List.append_assoc], qR⟩, ?_, ?_⟩
        · intro e hq
          exact absurd hq (hnq e)
        · intro rows2 e hq hs
          have h12 : (env.driver.query (w2.disk x.db.path) selectQuery []).1.2 = none := by
            rw [hq]
          have hrows : rows2 = rows := by
            rw [hq] at h11
            simpa using h11
          subst hrows
          rw [hscan] at hs
          simp at hs
          subst hs
          exact ⟨trivial, O, by simp [World.print, hO, h12], hrec⟩
      | none =>
        simp only [hscan]
        obtain ⟨f1, f2⟩ := printTimestamps_frame ts
          ({ w2 with
            disk := fun p =>
              if p = x.db.path then (env.driver.query (w2.disk x.db.path) selectQuery []).2
              else w2.disk p
            trace := w2.trace ++
              [Event.rlock dbw, Event.query x.db selectQuery [], Event.runlock dbw]
            out := w2.out ++
              (match (env.driver.query (w2.disk x.db.path) selectQuery []).1.2 with
                | some err => [Output.println [Value.err err]]
                | none => [])
            locksAtCall := w2.locksAtCall ++
              [fun q =>
                if q = dbw then
                  some { db := x.db,
                         mutex := { readers := x.mutex.readers + 1, writer := false } }
                else w2.heap q] } : World S)
        obtain ⟨w5, h5, a5⟩ := dispatches_advances env dbw x hw hr _ hjobs
          env.firesWhileWaiting _ (by rw [f2]; exact hx2)
        rw [h5]
        obtain ⟨_, T5, _, hT5, qT5, _, _⟩ := a5
        refine ⟨by simp, ⟨_, ?_, qR.append qT5⟩, ?_, ?_⟩
        · show w5.trace = _
          rw [hT5, f1]
          simp only [hT, List.append_assoc]
        · intro e hq
          exact absurd hq (hnq e)
        · intro rows2 e hq hs
          have hrows : rows2 = rows := by
            rw [hq] at h11
            simpa using h11
          subst hrows
          rw [hscan] at hs
          simp at hs

theorem main_after_init (env : Env S) (disk : String → S)
    (ho : env.driver.openDB "./data.db" = none)
    (he : (env.driver.exec (disk "./data.db") createTableQuery []).1.2 = none) :
    ∃ w1 : World S,
      w1.heap 0 = some { db := { path := "./data.db" }, mutex := RWMutex.free }
      ∧ w1.trace = [Event.sqlOpen "./data.db",
          Event.exec { path := "./data.db" } createTableQuery [],
          Event.newWrapper 0 { path := "./data.db" }]
      ∧ w1.out = [Output.println [Value.str "Loading database..."],
          Output.println [Value.str "Ran migrations..."]]
      ∧ main env (World.init disk) =
          (match (mainBody env 0 w1).1 with
            | Exit.returned =>
              (Exit.returned, DB.Close { path := "./data.db" } (mainBody env 0 w1).2)
            | Exit.panicked =>
              (Exit.panicked, DB.Close { path := "./data.db" } (mainBody env 0 w1).2)
            | e => (e, (mainBody env 0 w1).2)) := by
  have h := initDatabase_ok env.driver "./data.db" (World.init disk) ho he
  refine ⟨(initDatabase env.driver "./data.db" (World.init disk)).2, ?_, ?_, ?_, ?_⟩
  · rw [h]; simp [World.init]
  · rw [h]; simp [World.init]
  · rw [h]; simp [World.init]
  · simp only [main]
    rw [h]
    simp [World.init]

/-- C5: on a store whose `Query` fails and returns no cursor, `main` does not
go on to the final wait: `readTimestamps` prints the error and, having no
`return` there, calls `rows.Next()` on the nil cursor, so `main` ends in a
panic with the printed error as its last line. -/
theorem query_error_main_panics :
    (main failingQueryEnv (World.init blankDisk)).1 = Exit.panicked
    ∧ (main failingQueryEnv (World.init blankDisk)).1 ≠ Exit.waiting
    ∧ (main failingQueryEnv (World.init blankDisk)).2.out.getLast?
        = some (Output.println [Value.err "disk I/O error"]) := by
  decide

/-- C9 (amended): in every run of `main` from a fresh process, every `Query`
and `Exec` on the handle after the wrapper has been constructed is made by
`ReadData` or `WriteData` under the wrapper's lock; the one other call on the
handle is the deferred `db.Close()` of `main`, made directly, last, and only
when `main` returns or panics. -/
theorem handle_calls_via_wrapper_except_close (env : Env S) (disk : String → S) :
    ∃ pre, handleOnlyViaWrapper pre = true
      ∧ ((main env (World.init disk)).2.trace = pre
        ∨ ((main env (World.init disk)).2.trace = pre ++ [Event.close { path := "./data.db" }]
          ∧ ((main env (World.init disk)).1 = Exit.returned
            ∨ (main env (World.init disk)).1 = Exit.panicked))) := by
  cases ho : env.driver.openDB "./data.db" with
  | some e1 =>
    refine ⟨[Event.sqlOpen "./data.db"], rfl, Or.inl ?_⟩
    have hfail := initDatabase_open_failed env.driver "./data.db" (World.init disk) e1 ho
    simp only [main]
    rw [hfail]
    simp [World.print, World.init]
  | none =>
    cases he : (env.driver.exec (disk "./data.db") createTableQuery []).1.2 with
    | some e1 =>
      refine ⟨[Event.sqlOpen "./data.db", Event.exec { path := "./data.db" } createTableQuery []],
        rfl, Or.inl ?_⟩
      have hfail := initDatabase_exec_failed env.driver "./data.db" (World.init disk) e1 ho
        (by simpa [World.init] using he)
      simp only [main]
      rw [hfail]
      simp [World.print, World.init]
    | none =>
      obtain ⟨w1, hx, htr, _, hmain⟩ := main_after_init env disk ho he
      obtain ⟨_, ⟨T, hT, qT⟩, _, _⟩ := mainBody_spec env 0 w1 _ hx rfl rfl
      refine ⟨(mainBody env 0 w1).2.trace, ?_, ?_⟩
      · rw [hT, htr]
        simpa [handleOnlyViaWrapper, afterConstruction] using qT.1
      · rw [hmain]
        cases hexit : (mainBody env 0 w1).1 <;> simp [DB.Close, World.emit, World.snapshot]

/-- C9 (as stated, refuted): when a row of the startup read does not scan,
`main` returns, and its deferred `dbw.db.Close()` is a call on the handle made
directly, not by `ReadData` or `WriteData` and with the wrapper's lock free. -/
theorem deferred_close_bypasses_wrapper :
    (main corruptRowEnv (World.init blankDisk)).1 = Exit.returned
    ∧ (main corruptRowEnv (World.init blankDisk)).2.trace.getLast?
        = some (Event.close { path := "./data.db" })
    ∧ handleOnlyViaWrapper (main corruptRowEnv (World.init blankDisk)).2.trace = false := by
  decide

/-! ### Instances on concrete runs -/

theorem wrapper_forwards_single_call_witness :
    demoWorld.heap 0 = some demoWrapper
    ∧ (∃ w2, ReadData sqlite 0 selectQuery [] demoWorld
          = some ((some ⟨[], none⟩, none), w2)
        ∧ w2.trace = demoWorld.trace ++
            [Event.rlock 0, Event.query { path := "./data.db" } selectQuery [], Event.runlock 0])
    ∧ (∃ w2, WriteData sqlite 0 insertQuery [Value.time 7] demoWorld
          = some ((some ⟨1, 1⟩, none), w2)
        ∧ w2.trace = demoWorld.trace ++
            [Event.lock 0, Event.exec { path := "./data.db" } insertQuery [Value.time 7],
              Event.unlock 0]) :=
  ⟨rfl,
    let ⟨w2, h1, h2, _⟩ :=
      (wrapper_forwards_single_call sqlite 0 selectQuery [] demoWorld demoWrapper rfl).1 rfl
    ⟨w2, h1, h2⟩,
    let ⟨w2, h1, h2, _⟩ :=
      (wrapper_forwards_single_call sqlite 0 insertQuery [Value.time 7] demoWorld demoWrapper
        rfl).2 rfl rfl
    ⟨w2, h1, h2⟩⟩

theorem wrapper_lock_restored_witness :
    demoWorld.heap 0 = some demoWrapper
    ∧ (∃ w2 held, ReadData sqlite 0 selectQuery [] demoWorld
          = some ((some ⟨[], none⟩, none), w2)
        ∧ w2.heap = demoWorld.heap
        ∧ w2.locksAtCall = demoWorld.locksAtCall ++ [held]
        ∧ held 0 = some { db := { path := "./data.db" },
                          mutex := { readers := 1, writer := false } })
    ∧ (∃ w2 held, WriteData sqlite 0 insertQuery [Value.time 7] demoWorld
          = some ((some ⟨1, 1⟩, none), w2)
        ∧ w2.heap = demoWorld.heap
        ∧ w2.locksAtCall = demoWorld.locksAtCall ++ [held]
        ∧ held 0 = some { db := { path := "./data.db" },
                          mutex := { readers := 0, writer := true } }) :=
  ⟨rfl,
    let ⟨w2, held, h1, h2, _, h4, h5, _⟩ :=
      (wrapper_lock_restored sqlite 0 selectQuery [] demoWorld demoWrapper rfl).1 rfl
    ⟨w2, held, h1, h2, h4, h5⟩,
    let ⟨w2, held, h1, h2, _, h4, h5, _⟩ :=
      (wrapper_lock_restored sqlite 0 insertQuery [Value.time 7] demoWorld demoWrapper
        rfl).2 rfl rfl
    ⟨w2, held, h1, h2, h4, h5⟩⟩

theorem run_prints_inserted_line_always_witness :
    demoWorld.heap 0 = some demoWrapper
    ∧ ∃ w2, StoreTimestampJob.Run failingExecEnv { dbw := 0 } demoWorld = some w2
      ∧ w2.out.getLast?
          = some (Output.println [Value.str "Timestamp inserted:", Value.time 100])
      ∧ w2.out = demoWorld.out ++
          [Output.logPrintf "Failed to insert timestamp: %v" [Value.err "database is locked"],
            Output.println [Value.str "Timestamp inserted:", Value.time 100]] :=
  ⟨rfl,
    let ⟨w2, h1, h2, _, h4⟩ :=
      run_prints_inserted_line_always failingExecEnv { dbw := 0 } demoWorld demoWrapper
        rfl rfl rfl
    ⟨w2, h1, h2, h4 "database is locked" rfl⟩⟩

theorem insert_then_read_round_trip_witness :
    demoWorld.heap 0 = some demoWrapper
    ∧ demoWorld.disk demoWrapper.db.path = { timestamps := some [] }
    ∧ ∃ w1 w2 records,
      insertAll sqlite 0 [50, 20, 90] demoWorld = some ([none, none, none], w1)
      ∧ readTimestamps sqlite 0 w1 = some (Outcome.ret (records, none), w2)
      ∧ records.length = 3
      ∧ (records.map Timestamp.ID).Nodup
      ∧ (records.map Timestamp.ID).Pairwise (· < ·)
      ∧ records.map Timestamp.Timestamp = [50, 20, 90] :=
  ⟨rfl, rfl,
    insert_then_read_round_trip 0 demoWrapper demoWorld [50, 20, 90] rfl rfl rfl rfl⟩

theorem initDatabase_error_aborts_startup_witness :
    (initDatabase noOpenEnv.driver "./data.db" (World.init blankDisk)).1.2
        = some "unable to open database file"
    ∧ (initDatabase noOpenEnv.driver "./data.db" (World.init blankDisk)).1.1 = none
    ∧ (main noOpenEnv (World.init blankDisk)).1 = Exit.fatal
    ∧ (main noOpenEnv (World.init blankDisk)).2.out =
        [Output.println [Value.str "Loading database..."],
          Output.logFatal [Value.str "Error initialized the database",
            Value.err "unable to open database file"]]
    ∧ (initDatabase demoEnv.driver "./data.db" (World.init blankDisk)).1.1 = some 0 :=
  ⟨rfl,
    (initDatabase_error_aborts_startup noOpenEnv "./data.db" (World.init blankDisk)
      "unable to open database file").2.1 rfl,
    ((initDatabase_error_aborts_startup noOpenEnv "./data.db" (World.init blankDisk)
      "unable to open database file").2.2.2 rfl).1,
    ((initDatabase_error_aborts_startup noOpenEnv "./data.db" (World.init blankDisk)
      "unable to open database file").2.2.2 rfl).2.1,
    ((initDatabase_error_aborts_startup demoEnv "./data.db" (World.init blankDisk)
      "").2.2.1 rfl).1⟩

end TaskScheduler
